import Mathlib

/-!
Verification of the Simple-Wave-Synth program (src/main.rs).

The program has three parts with nontrivial semantics:
* `Note::frequency` — the pitch-name → frequency resolver (main.rs lines 17–68);
* `SineWave` with its `Iterator::next` — the lazy sample stream (lines 70–103);
* the sequencing loop in `main` (lines 157–161) appending, per note, a tone
  stream and a 5 ms silence stream.

We shallowly embed these in Lean: Rust `f32` values are modelled as real
numbers, and each panic site of `Note::frequency` is modelled as a
distinct error value of `NoteError`, following the error taxonomy the
design document assigns to the panic sites.
-/

namespace WaveSynth

/-- `const SAMPLE_RATE: f32 = 44100.0;` (main.rs line 7). -/
def SAMPLE_RATE : ℝ := 44100

/-- `const A4_FREQ: f32 = 440.0;` (main.rs line 8). -/
def A4_FREQ : ℝ := 440

/-- `const OCTAVE_SEMITONES: i32 = 12;` (main.rs line 9). -/
def OCTAVE_SEMITONES : ℤ := 12

/-- The error taxonomy for pitch resolution.  The Rust code panics at
distinct sites; each constructor names one site.  The first four carry
the names the design document's taxonomy assigns to them; `missingChar`
is the remaining panic site (an `unwrap` of `chars().nth(i)`), which the
taxonomy does not cover. -/
inductive NoteError where
  /-- note-name byte length is neither 2 nor 3 (the "Invalid note" panic on the string, line 45). -/
  | invalidNoteFormat
  /-- first character is not one of A–G (the "Invalid note" panic on the letter, line 59). -/
  | unknownPitchLetter
  /-- character at index 1 of a 3-byte name is not `b` or `#` (the "Invalid accidental" panic, line 38). -/
  | invalidAccidental
  /-- octave character is not a decimal digit (`to_digit(10).unwrap()` panics, lines 29 and 42). -/
  | invalidOctaveDigit
  /-- `chars().nth(i).unwrap()` panicked: the name has fewer characters
  than the byte-length branch indexes (possible only for names containing
  multi-byte characters, e.g. `"é"`; lines 28, 29, 32, 33 and 42). -/
  | missingChar
deriving DecidableEq

/-- `struct Note { note: String, duration: f32 }` (main.rs lines 11–15). -/
structure Note where
  note : String
  duration : ℝ

/-- Rust `char::to_digit(10)`: `Some(d)` exactly for the ASCII digits
`'0'..='9'`, `None` otherwise. -/
def charToDigit (c : Char) : Option ℕ :=
  if c ≥ '0' ∧ c ≤ '9' then some (c.toNat - '0'.toNat) else none

/-- The accidental branch of `Note::frequency` (main.rs lines 34–40):
`'b' → -1`, `'#' → 1`, anything else panics (`InvalidAccidental`). -/
def accidentalOffset : Char → Except NoteError ℤ
  | 'b' => .ok (-1)
  | '#' => .ok 1
  | _ => .error .invalidAccidental

/-- The letter table of `Note::frequency` (main.rs lines 50–61): semitones
that A/B/C/D/E/F/G of octave 4 lie from A4; an unknown letter panics
(`UnknownPitchLetter`). -/
def letterOffset : Char → Except NoteError ℤ
  | 'A' => .ok 0
  | 'B' => .ok 2
  | 'C' => .ok (-9)
  | 'D' => .ok (-7)
  | 'E' => .ok (-5)
  | 'F' => .ok (-4)
  | 'G' => .ok (-2)
  | _ => .error .unknownPitchLetter

/-- The parsing-and-arithmetic core of `Note::frequency` (main.rs lines
19–63), up to and including the local variable `semitones_from_a4 = n +
relative_octave * OCTAVE_SEMITONES + accidental_offset`.  The branching
of the Rust code is preserved exactly: `match self.note.len()` branches
on the **UTF-8 byte length** of the name (`String.utf8ByteSize` models
Rust's `String::len`), while the individual characters are fetched by
character index (`self.note.chars().nth(i)`, modelled as
`self.note.data.get? i`, whose `unwrap` on `none` is the `missingChar`
panic).  The evaluation order is also preserved: 2-byte branch — char 0,
char 1, octave digit, then the letter table; 3-byte branch — char 0,
char 1, accidental, char 2, octave digit, then the letter table. -/
def Note.semitones (self : Note) : Except NoteError ℤ :=
  if self.note.utf8ByteSize = 2 then
    match self.note.data.get? 0 with
    | none => .error .missingChar
    | some note =>
        match self.note.data.get? 1 with
        | none => .error .missingChar
        | some oct =>
            match charToDigit oct with
            | none => .error .invalidOctaveDigit
            | some d =>
                let relative_octave : ℤ := (d : ℤ) - 4
                match letterOffset note with
                | .error e => .error e
                | .ok n => .ok (n + relative_octave * OCTAVE_SEMITONES + 0)
  else if self.note.utf8ByteSize = 3 then
    match self.note.data.get? 0 with
    | none => .error .missingChar
    | some note =>
        match self.note.data.get? 1 with
        | none => .error .missingChar
        | some acc =>
            match accidentalOffset acc with
            | .error e => .error e
            | .ok accidental_offset =>
                match self.note.data.get? 2 with
                | none => .error .missingChar
                | some oct =>
                    match charToDigit oct with
                    | none => .error .invalidOctaveDigit
                    | some d =>
                        let relative_octave : ℤ := (d : ℤ) - 4
                        match letterOffset note with
                        | .error e => .error e
                        | .ok n =>
                            .ok (n + relative_octave * OCTAVE_SEMITONES +
                              accidental_offset)
  else .error .invalidNoteFormat

/-- `Note::frequency` (main.rs line 65): `2.0_f32.powf(semitones_from_a4
as f32 / 12.0) * A4_FREQ`, on top of `Note.semitones`. -/
noncomputable def Note.frequency (self : Note) : Except NoteError ℝ :=
  self.semitones.map (fun semitones_from_a4 => (2 : ℝ) ^ ((semitones_from_a4 : ℝ) / 12) * A4_FREQ)

/-- `struct SineWave` (main.rs lines 70–75). -/
structure SineWave where
  frequency : ℝ
  duration : ℝ
  current_sample : ℝ
  total_samples : ℝ

/-- `SineWave::new` (main.rs lines 78–85). -/
noncomputable def SineWave.new (frequency duration : ℝ) : SineWave :=
  { frequency := frequency
    duration := duration
    current_sample := 0
    total_samples := duration * SAMPLE_RATE }

/-- `Source::sample_rate` for `SineWave` (main.rs lines 114–116): the
constant 44100. -/
def SineWave.sample_rate (_ : SineWave) : ℕ := 44100

/-- `Source::channels` for `SineWave` (main.rs lines 110–112). -/
def SineWave.channels (_ : SineWave) : ℕ := 1

/-- `Iterator::next` for `SineWave` (main.rs lines 91–103).  Rust's
`fn next(&mut self) -> Option<f32>` both returns the optional sample and
updates the stream state, so the embedding returns the pair; in the
exhausted branch the state is returned unchanged. -/
noncomputable def SineWave.next (s : SineWave) : Option ℝ × SineWave :=
  if s.current_sample ≥ s.total_samples then
    (none, s)
  else
    let t := s.current_sample / (s.sample_rate : ℝ)
    let output := Real.sin (2 * Real.pi * s.frequency * t)
    (some (output * 0.5), { s with current_sample := s.current_sample + 1 })

/-- The stream state after `k` pulls (iterated `SineWave.next`). -/
noncomputable def SineWave.iter (s : SineWave) : ℕ → SineWave
  | 0 => s
  | k + 1 => ((s.iter k).next).2

/-- The result of the `k`-th pull (0-based): `some v` if the pull emits
sample `v`, `none` if it signals exhaustion. -/
noncomputable def SineWave.out (s : SineWave) (k : ℕ) : Option ℝ :=
  ((s.iter k).next).1

/-- "The stream produces exactly `N` samples before signalling
exhaustion": the first `N` pulls emit samples and pull `N` signals
exhaustion. -/
noncomputable def SineWave.producesExactly (s : SineWave) (N : ℕ) : Prop :=
  (∀ k, k < N → (s.out k).isSome) ∧ s.out N = none

/-- The sequencing loop of `main` (main.rs lines 157–161): for each note,
append a tone stream `SineWave::new(freq, duration)` and then a silence
stream `SineWave::new(0.0, 0.005)`; resolving a note's frequency can fail
(panic), aborting the run. -/
noncomputable def playbackSequence : List Note → Except NoteError (List SineWave)
  | [] => .ok []
  | nt :: rest => do
      let freq ← nt.frequency
      let tail ← playbackSequence rest
      .ok (SineWave.new freq nt.duration :: SineWave.new 0 0.005 :: tail)

/-- Modelled from the spec (§3 "Playback Sequence", §4.2 last paragraph):
the expected playback sequence for a list of (note, resolved-frequency)
pairs — per pair, one tone stream at the resolved frequency and the
note's duration, then one silence stream of frequency 0 and duration
0.005 s, in input order. -/
noncomputable def specPlayback (pairs : List (Note × ℝ)) : List SineWave :=
  pairs.foldr (fun p acc => SineWave.new p.2 p.1.duration :: SineWave.new 0 0.005 :: acc) []

/-- After `k` pulls, a freshly constructed stream has advanced its
`current_sample` counter to `min k ⌈d * 44100⌉₊`: it counts up by one per
emitted sample and stops at the first integer `≥ total_samples`. -/
lemma SineWave.iter_new (f d : ℝ) (k : ℕ) :
    (SineWave.new f d).iter k =
      { frequency := f, duration := d,
        current_sample := ((min k ⌈d * SAMPLE_RATE⌉₊ : ℕ) : ℝ),
        total_samples := d * SAMPLE_RATE } := by
  induction k with
  | zero =>
      simp [SineWave.iter, SineWave.new]
  | succ k ih =>
      rw [SineWave.iter, ih]
      by_cases h : k < ⌈d * SAMPLE_RATE⌉₊
      · have hmin : min k ⌈d * SAMPLE_RATE⌉₊ = k := min_eq_left h.le
        have hmin' : min (k + 1) ⌈d * SAMPLE_RATE⌉₊ = k + 1 := min_eq_left h
        have hlt : ((k : ℕ) : ℝ) < d * SAMPLE_RATE := Nat.lt_ceil.mp h
        rw [SineWave.next]
        rw [hmin, hmin', if_neg (not_le.mpr hlt)]
        simp only []
        congr 1
        push_cast
        ring
      · have hC : ⌈d * SAMPLE_RATE⌉₊ ≤ k := not_lt.mp h
        have hmin : min k ⌈d * SAMPLE_RATE⌉₊ = ⌈d * SAMPLE_RATE⌉₊ := min_eq_right hC
        have hmin' : min (k + 1) ⌈d * SAMPLE_RATE⌉₊ = ⌈d * SAMPLE_RATE⌉₊ :=
          min_eq_right (hC.trans k.le_succ)
        have hge : d * SAMPLE_RATE ≤ ((⌈d * SAMPLE_RATE⌉₊ : ℕ) : ℝ) := Nat.le_ceil _
        rw [SineWave.next, hmin, hmin', if_pos hge]

/-- The `k`-th pull of a freshly constructed stream: a sample while
`k < ⌈d * 44100⌉₊`, exhaustion afterwards. -/
lemma SineWave.out_new (f d : ℝ) (k : ℕ) :
    (SineWave.new f d).out k =
      if k < ⌈d * SAMPLE_RATE⌉₊ then
        some (Real.sin (2 * Real.pi * f * ((k : ℝ) / SAMPLE_RATE)) * 0.5)
      else none := by
  rw [SineWave.out, SineWave.iter_new]
  by_cases h : k < ⌈d * SAMPLE_RATE⌉₊
  · have hmin : min k ⌈d * SAMPLE_RATE⌉₊ = k := min_eq_left h.le
    have hlt : ((k : ℕ) : ℝ) < d * SAMPLE_RATE := Nat.lt_ceil.mp h
    rw [if_pos h, SineWave.next, hmin, if_neg (not_le.mpr hlt)]
    have hsr : ((SineWave.sample_rate
        { frequency := f, duration := d, current_sample := ((k : ℕ) : ℝ),
          total_samples := d * SAMPLE_RATE } : ℕ) : ℝ) = SAMPLE_RATE := by
      norm_num [SineWave.sample_rate, SAMPLE_RATE]
    simp only [hsr]
  · have hC : ⌈d * SAMPLE_RATE⌉₊ ≤ k := not_lt.mp h
    have hmin : min k ⌈d * SAMPLE_RATE⌉₊ = ⌈d * SAMPLE_RATE⌉₊ := min_eq_right hC
    have hge : d * SAMPLE_RATE ≤ ((⌈d * SAMPLE_RATE⌉₊ : ℕ) : ℝ) := Nat.le_ceil _
    rw [if_neg h, SineWave.next, hmin, if_pos hge]

/-- Exhaustion of a fresh stream at pull `k` is exactly `⌈d * 44100⌉₊ ≤ k`. -/
lemma SineWave.out_new_eq_none_iff (f d : ℝ) (k : ℕ) :
    (SineWave.new f d).out k = none ↔ ⌈d * SAMPLE_RATE⌉₊ ≤ k := by
  rw [SineWave.out_new]
  by_cases h : k < ⌈d * SAMPLE_RATE⌉₊
  · simp [if_pos h, not_le.mpr h]
  · simp [if_neg h, not_lt.mp h]

/-- C2 (amended): a stream constructed with duration `d ≥ 0` produces
exactly `⌈d * 44100⌉₊` samples — the number of nonnegative integers
strictly below `d * 44100`, i.e. the ceiling, not the rounding, of
`d * 44100` — before signalling exhaustion; in the boundary case `d = 0`
the stream is immediately exhausted. -/
theorem c2_sample_count (f d : ℝ) (hd : 0 ≤ d) :
    (SineWave.new f d).producesExactly ⌈d * SAMPLE_RATE⌉₊ ∧
      (SineWave.new f 0).producesExactly 0 := by
  have key : ∀ d' : ℝ, (SineWave.new f d').producesExactly ⌈d' * SAMPLE_RATE⌉₊ := by
    intro d'
    constructor
    · intro k hk
      rw [SineWave.out_new, if_pos hk]
      rfl
    · exact (SineWave.out_new_eq_none_iff f d' _).mpr le_rfl
  refine ⟨key d, ?_⟩
  have h0 : ⌈(0 : ℝ) * SAMPLE_RATE⌉₊ = 0 := by norm_num
  simpa [h0] using key 0

/-- C2 witness: at `f = 440`, `d = 1 / 44100` the hypotheses hold. -/
theorem c2_sample_count_witness :
    (SineWave.new 440 (1 / 44100)).producesExactly ⌈(1 / 44100 : ℝ) * SAMPLE_RATE⌉₊ ∧
      (SineWave.new 440 0).producesExactly 0 :=
  c2_sample_count 440 (1 / 44100) (by norm_num)

/-- C2 counterexample: for `d = 1 / 100000` we have `d * 44100 = 0.441`,
so `round (d * 44100) = 0`, yet the very first pull emits a sample — the
stream does not produce exactly `round (d * 44100)` samples. -/
theorem c2_counterexample :
    round ((1 / 100000 : ℝ) * SAMPLE_RATE) = 0 ∧
      ¬ (SineWave.new 440 (1 / 100000)).producesExactly
          (round ((1 / 100000 : ℝ) * SAMPLE_RATE)).toNat := by
  have hval : (1 / 100000 : ℝ) * SAMPLE_RATE = 441 / 1000 := by
    rw [SAMPLE_RATE]; norm_num
  have hround : round ((1 / 100000 : ℝ) * SAMPLE_RATE) = 0 := by
    rw [hval, round_eq]
    have : (⌊(441 / 1000 : ℝ) + 1 / 2⌋ : ℤ) = 0 := by
      rw [Int.floor_eq_iff] <;> norm_num
    simpa using this
  refine ⟨hround, ?_⟩
  rw [hround]
  intro hpe
  have hnone := hpe.2
  rw [Int.toNat_zero, SineWave.out_new_eq_none_iff, Nat.le_zero, Nat.ceil_eq_zero,
    hval] at hnone
  norm_num at hnone

/-- C4: for `f ≥ 0`, `d ≥ 0` and any index `i` below the stream's
`total_samples`, the `i`-th pulled sample equals
`sin (2π · f · (i / 44100)) * 0.5`; and every emitted sample lies in
`[-0.5, 0.5]`. -/
theorem c4_sample_formula (f d : ℝ) (hf : 0 ≤ f) (hd : 0 ≤ d) :
    (∀ i : ℕ, (i : ℝ) < (SineWave.new f d).total_samples →
        (SineWave.new f d).out i =
          some (Real.sin (2 * Real.pi * f * ((i : ℝ) / SAMPLE_RATE)) * 0.5)) ∧
      (∀ (i : ℕ) (v : ℝ), (SineWave.new f d).out i = some v →
        -0.5 ≤ v ∧ v ≤ 0.5) := by
  have htot : (SineWave.new f d).total_samples = d * SAMPLE_RATE := rfl
  constructor
  · intro i hi
    rw [htot] at hi
    rw [SineWave.out_new, if_pos (Nat.lt_ceil.mpr hi)]
  · intro i v hv
    rw [SineWave.out_new] at hv
    by_cases h : i < ⌈d * SAMPLE_RATE⌉₊
    · rw [if_pos h] at hv
      have hv' : Real.sin (2 * Real.pi * f * ((i : ℝ) / SAMPLE_RATE)) * 0.5 = v :=
        Option.some.inj hv
      have hlo := Real.neg_one_le_sin (2 * Real.pi * f * ((i : ℝ) / SAMPLE_RATE))
      have hhi := Real.sin_le_one (2 * Real.pi * f * ((i : ℝ) / SAMPLE_RATE))
      constructor <;> nlinarith
    · rw [if_neg h] at hv
      cases hv

/-- C4 witness: at `f = 440`, `d = 1`, `i = 0` the hypotheses hold. -/
theorem c4_sample_formula_witness :
    (SineWave.new 440 1).out 0 =
      some (Real.sin (2 * Real.pi * 440 * ((0 : ℕ) / SAMPLE_RATE)) * 0.5) :=
  (c4_sample_formula 440 1 (by norm_num) (by norm_num)).1 0
    (by norm_num [SineWave.new, SAMPLE_RATE])

/-- C6: a frequency-0 stream of duration `d ≥ 0` emits `0` at every
in-range index and signals exhaustion at every out-of-range index, and it
is exhausted at exactly the same indices as a stream of any other
frequency with the same duration. -/
theorem c6_silence (d : ℝ) (hd : 0 ≤ d) :
    (∀ k : ℕ, ((k : ℝ) < d * SAMPLE_RATE → (SineWave.new 0 d).out k = some 0) ∧
        (d * SAMPLE_RATE ≤ (k : ℝ) → (SineWave.new 0 d).out k = none)) ∧
      (∀ (f : ℝ) (k : ℕ),
        ((SineWave.new 0 d).out k = none ↔ (SineWave.new f d).out k = none)) := by
  constructor
  · intro k
    constructor
    · intro hk
      rw [SineWave.out_new, if_pos (Nat.lt_ceil.mpr hk)]
      simp
    · intro hk
      rw [SineWave.out_new_eq_none_iff]
      exact Nat.ceil_le.mpr hk
  · intro f k
    rw [SineWave.out_new_eq_none_iff, SineWave.out_new_eq_none_iff]

/-- C6 witness: at `d = 1 / 200` (the 5 ms silence duration), pull 0 emits
`0`. -/
theorem c6_silence_witness : (SineWave.new 0 (1 / 200)).out 0 = some 0 :=
  ((c6_silence (1 / 200) (by norm_num)).1 0).1 (by norm_num [SAMPLE_RATE])

/-- C9: every stream with `f ≥ 0`, `d ≥ 0` is finite — from some pull
index on, every pull signals exhaustion — and exhaustion is stable: once
a pull signals exhaustion, every later pull does too. -/
theorem c9_finite_stable (f d : ℝ) (hf : 0 ≤ f) (hd : 0 ≤ d) :
    (∃ N, ∀ k, N ≤ k → (SineWave.new f d).out k = none) ∧
      (∀ j k, (SineWave.new f d).out j = none → j ≤ k →
        (SineWave.new f d).out k = none) := by
  constructor
  · exact ⟨⌈d * SAMPLE_RATE⌉₊, fun k hk => (SineWave.out_new_eq_none_iff f d k).mpr hk⟩
  · intro j k hj hjk
    rw [SineWave.out_new_eq_none_iff] at hj ⊢
    exact hj.trans hjk

/-- C9 witness: at `f = 440`, `d = 1` the hypotheses hold. -/
theorem c9_finite_stable_witness :
    (∃ N, ∀ k, N ≤ k → (SineWave.new 440 1).out k = none) ∧
      (∀ j k, (SineWave.new 440 1).out j = none → j ≤ k →
        (SineWave.new 440 1).out k = none) :=
  c9_finite_stable 440 1 (by norm_num) (by norm_num)

/-- C10: constructing a stream with a negative duration yields an
immediately exhausted stream — every pull, from the first on, signals
exhaustion and no sample is ever emitted (and no error is raised:
`SineWave.new` and `SineWave.next` are total). -/
theorem c10_negative_duration (f d : ℝ) (hd : d < 0) :
    ∀ k : ℕ, (SineWave.new f d).out k = none := by
  intro k
  rw [SineWave.out_new_eq_none_iff]
  have hc : d * SAMPLE_RATE ≤ 0 := by
    rw [SAMPLE_RATE]
    nlinarith
  rw [Nat.ceil_eq_zero.mpr hc]
  exact Nat.zero_le k

/-- C10 witness: at `f = 440`, `d = -1`, pull 0 signals exhaustion. -/
theorem c10_negative_duration_witness : (SineWave.new 440 (-1)).out 0 = none :=
  c10_negative_duration 440 (-1) (by norm_num) 0

/-- The letter table rejects every character other than the seven
recognised letters. -/
lemma letterOffset_error {l : Char}
    (h : l ∉ (['A', 'B', 'C', 'D', 'E', 'F', 'G'] : List Char)) :
    letterOffset l = .error .unknownPitchLetter := by
  simp only [List.mem_cons, List.not_mem_nil, or_false] at h
  push_neg at h
  obtain ⟨h1, h2, h3, h4, h5, h6, h7⟩ := h
  unfold letterOffset
  split <;> simp_all

/-- The accidental branch rejects every character other than `b` and `#`. -/
lemma accidentalOffset_error {a : Char} (hb : a ≠ 'b') (hs : a ≠ '#') :
    accidentalOffset a = .error .invalidAccidental := by
  unfold accidentalOffset
  split <;> simp_all

/-- An ASCII digit is a 1-byte character. -/
lemma utf8Size_of_digit {o : Char} {d : ℕ} (ho : charToDigit o = some d) :
    o.utf8Size = 1 := by
  by_cases hc : '0' ≤ o ∧ o ≤ '9'
  · have h9 : ('9' : Char).val ≤ (127 : UInt32) := by decide
    have hle : o.val ≤ (127 : UInt32) := Nat.le_trans hc.2 h9
    simp [Char.utf8Size, hle]
  · rw [charToDigit, if_neg hc] at ho
    cases ho

/-- A recognised pitch letter is a 1-byte character. -/
lemma utf8Size_of_letter {l : Char} {nl : ℤ} (hl : letterOffset l = .ok nl) :
    l.utf8Size = 1 := by
  by_cases hmem : l ∈ (['A', 'B', 'C', 'D', 'E', 'F', 'G'] : List Char)
  · fin_cases hmem <;> decide
  · rw [letterOffset_error hmem] at hl
    cases hl

/-- A recognised accidental is a 1-byte character. -/
lemma utf8Size_of_accidental {a : Char} {na : ℤ}
    (ha : accidentalOffset a = .ok na) : a.utf8Size = 1 := by
  by_cases hb : a = 'b'
  · subst hb; decide
  by_cases hs : a = '#'
  · subst hs; decide
  rw [accidentalOffset_error hb hs] at ha
  cases ha

/-- A name of two 1-byte characters has byte length 2. -/
lemma pair_utf8ByteSize {l o : Char} (hl : l.utf8Size = 1) (ho : o.utf8Size = 1) :
    (String.mk [l, o]).utf8ByteSize = 2 := by
  simp [String.utf8ByteSize_mk, hl, ho]

/-- A name of three 1-byte characters has byte length 3. -/
lemma triple_utf8ByteSize {l a o : Char} (hl : l.utf8Size = 1)
    (ha : a.utf8Size = 1) (ho : o.utf8Size = 1) :
    (String.mk [l, a, o]).utf8ByteSize = 3 := by
  simp [String.utf8ByteSize_mk, hl, ha, ho]

/-- `Note.semitones` with the definitional branch structure exposed, for
rewriting: the byte-length conditions and the per-index character
accesses.  (Restates the definition; holds by `rfl`.) -/
lemma semitones_eq_def (nt : Note) :
    Note.semitones nt =
      (if nt.note.utf8ByteSize = 2 then
        match nt.note.data.get? 0 with
        | none => .error .missingChar
        | some note =>
            match nt.note.data.get? 1 with
            | none => .error .missingChar
            | some oct =>
                match charToDigit oct with
                | none => .error .invalidOctaveDigit
                | some d =>
                    match letterOffset note with
                    | .error e => .error e
                    | .ok n => .ok (n + ((d : ℤ) - 4) * OCTAVE_SEMITONES + 0)
      else if nt.note.utf8ByteSize = 3 then
        match nt.note.data.get? 0 with
        | none => .error .missingChar
        | some note =>
            match nt.note.data.get? 1 with
            | none => .error .missingChar
            | some acc =>
                match accidentalOffset acc with
                | .error e => .error e
                | .ok accidental_offset =>
                    match nt.note.data.get? 2 with
                    | none => .error .missingChar
                    | some oct =>
                        match charToDigit oct with
                        | none => .error .invalidOctaveDigit
                        | some d =>
                            match letterOffset note with
                            | .error e => .error e
                            | .ok n =>
                                .ok (n + ((d : ℤ) - 4) * OCTAVE_SEMITONES +
                                  accidental_offset)
      else .error .invalidNoteFormat) := rfl

/-- `Note.semitones` on an explicit 2-character name, with the character
accesses reduced.  For such a name the 3-byte branch (reachable when the
first character is 2 bytes wide) stops at the accidental check or at the
missing third character.  (Holds by `rfl`.) -/
lemma semitones_pair_eq (l o : Char) (dur : ℝ) :
    Note.semitones ⟨String.mk [l, o], dur⟩ =
      if (String.mk [l, o]).utf8ByteSize = 2 then
        match charToDigit o with
        | none => .error .invalidOctaveDigit
        | some d =>
            match letterOffset l with
            | .error e => .error e
            | .ok n => .ok (n + ((d : ℤ) - 4) * OCTAVE_SEMITONES + 0)
      else if (String.mk [l, o]).utf8ByteSize = 3 then
        match accidentalOffset o with
        | .error e => .error e
        | .ok _ => .error .missingChar
      else .error .invalidNoteFormat := rfl

/-- `Note.semitones` on an explicit 3-character name, with the character
accesses reduced.  (Holds by `rfl`; the 2-byte branch is unreachable
since three characters occupy at least three bytes.) -/
lemma semitones_triple_eq (l a o : Char) (dur : ℝ) :
    Note.semitones ⟨String.mk [l, a, o], dur⟩ =
      if (String.mk [l, a, o]).utf8ByteSize = 2 then
        match charToDigit a with
        | none => .error .invalidOctaveDigit
        | some d =>
            match letterOffset l with
            | .error e => .error e
            | .ok n => .ok (n + ((d : ℤ) - 4) * OCTAVE_SEMITONES + 0)
      else if (String.mk [l, a, o]).utf8ByteSize = 3 then
        match accidentalOffset a with
        | .error e => .error e
        | .ok accidental_offset =>
            match charToDigit o with
            | none => .error .invalidOctaveDigit
            | some d =>
                match letterOffset l with
                | .error e => .error e
                | .ok n =>
                    .ok (n + ((d : ℤ) - 4) * OCTAVE_SEMITONES + accidental_offset)
      else .error .invalidNoteFormat := rfl

/-- `Note.frequency` on a 2-character name with a digit octave character
and a recognised letter (both necessarily ASCII, so the name is 2 bytes
long and takes the 2-byte branch). -/
lemma frequency_two_ok (l o : Char) (dur : ℝ) (nl : ℤ) (d : ℕ)
    (hl : letterOffset l = .ok nl) (ho : charToDigit o = some d) :
    Note.frequency ⟨String.mk [l, o], dur⟩ =
      .ok ((2 : ℝ) ^ (((nl + ((d : ℤ) - 4) * OCTAVE_SEMITONES + 0 : ℤ) : ℝ) / 12) *
        A4_FREQ) := by
  rw [Note.frequency, semitones_pair_eq,
    if_pos (pair_utf8ByteSize (utf8Size_of_letter hl) (utf8Size_of_digit ho)),
    ho, hl]
  rfl

/-- `Note.frequency` on a 3-character name with a recognised accidental,
a digit octave character and a recognised letter (all necessarily ASCII,
so the name is 3 bytes long and takes the 3-byte branch). -/
lemma frequency_three_ok (l a o : Char) (dur : ℝ) (nl na : ℤ) (d : ℕ)
    (hl : letterOffset l = .ok nl) (ha : accidentalOffset a = .ok na)
    (ho : charToDigit o = some d) :
    Note.frequency ⟨String.mk [l, a, o], dur⟩ =
      .ok ((2 : ℝ) ^ (((nl + ((d : ℤ) - 4) * OCTAVE_SEMITONES + na : ℤ) : ℝ) / 12) *
        A4_FREQ) := by
  rw [Note.frequency, semitones_triple_eq,
    if_neg (by rw [triple_utf8ByteSize (utf8Size_of_letter hl)
      (utf8Size_of_accidental ha) (utf8Size_of_digit ho)]; omega),
    if_pos (triple_utf8ByteSize (utf8Size_of_letter hl)
      (utf8Size_of_accidental ha) (utf8Size_of_digit ho)),
    ha, ho, hl]
  rfl

/-- Inversion: a successfully resolved frequency comes from a
successfully parsed semitone count via the `2^(n/12) * 440` formula. -/
lemma frequency_ok_inv {nt : Note} {f : ℝ} (h : nt.frequency = .ok f) :
    ∃ s, nt.semitones = .ok s ∧ f = (2 : ℝ) ^ ((s : ℝ) / 12) * A4_FREQ := by
  rw [Note.frequency] at h
  cases hs : nt.semitones with
  | error e => rw [hs] at h; cases h
  | ok s => rw [hs] at h; exact ⟨s, rfl, (Except.ok.inj h).symm⟩

/-- Inversion: a 2-character name parses to a semitone count only via a
recognised letter and a digit octave character. -/
lemma semitones_pair_ok_inv {l o : Char} {dur : ℝ} {s : ℤ}
    (h : Note.semitones ⟨String.mk [l, o], dur⟩ = .ok s) :
    ∃ nl d, letterOffset l = .ok nl ∧ charToDigit o = some d ∧
      s = nl + ((d : ℤ) - 4) * OCTAVE_SEMITONES + 0 := by
  rw [semitones_pair_eq] at h
  by_cases h2 : (String.mk [l, o]).utf8ByteSize = 2
  · rw [if_pos h2] at h
    cases ho : charToDigit o with
    | none => rw [ho] at h; cases h
    | some d =>
        rw [ho] at h
        cases hl : letterOffset l with
        | error e => rw [hl] at h; cases h
        | ok nl =>
            rw [hl] at h
            exact ⟨nl, d, rfl, rfl, (Except.ok.inj h).symm⟩
  · rw [if_neg h2] at h
    by_cases h3 : (String.mk [l, o]).utf8ByteSize = 3
    · rw [if_pos h3] at h
      cases ha : accidentalOffset o with
      | error e => rw [ha] at h; cases h
      | ok na => rw [ha] at h; cases h
    · rw [if_neg h3] at h; cases h

/-- Inversion: a 3-character name parses to a semitone count only via a
recognised letter, a recognised accidental and a digit octave character. -/
lemma semitones_triple_ok_inv {l a o : Char} {dur : ℝ} {s : ℤ}
    (h : Note.semitones ⟨String.mk [l, a, o], dur⟩ = .ok s) :
    ∃ nl na d, letterOffset l = .ok nl ∧ accidentalOffset a = .ok na ∧
      charToDigit o = some d ∧
      s = nl + ((d : ℤ) - 4) * OCTAVE_SEMITONES + na := by
  rw [semitones_triple_eq] at h
  have h2 : (String.mk [l, a, o]).utf8ByteSize ≠ 2 := by
    have hpl := Char.utf8Size_pos l
    have hpa := Char.utf8Size_pos a
    have hpo := Char.utf8Size_pos o
    simp only [String.utf8ByteSize_mk, String.utf8Len_cons, String.utf8Len_nil]
    omega
  rw [if_neg h2] at h
  by_cases h3 : (String.mk [l, a, o]).utf8ByteSize = 3
  · rw [if_pos h3] at h
    cases ha : accidentalOffset a with
    | error e => rw [ha] at h; cases h
    | ok na =>
        rw [ha] at h
        cases ho : charToDigit o with
        | none => rw [ho] at h; cases h
        | some d =>
            rw [ho] at h
            cases hl : letterOffset l with
            | error e => rw [hl] at h; cases h
            | ok nl =>
                rw [hl] at h
                exact ⟨nl, na, d, rfl, rfl, rfl, (Except.ok.inj h).symm⟩
  · rw [if_neg h3] at h; cases h

/-- Strict monotonicity of the frequency formula in the semitone count. -/
lemma freq_formula_strictMono {n₁ n₂ : ℤ} (h : n₁ < n₂) :
    (2 : ℝ) ^ ((n₁ : ℝ) / 12) * A4_FREQ < (2 : ℝ) ^ ((n₂ : ℝ) / 12) * A4_FREQ := by
  have hexp : (n₁ : ℝ) / 12 < (n₂ : ℝ) / 12 := by
    have : (n₁ : ℝ) < (n₂ : ℝ) := by exact_mod_cast h
    linarith
  have hpow := (Real.rpow_lt_rpow_left_iff one_lt_two).mpr hexp
  have h440 : (0 : ℝ) < A4_FREQ := by norm_num [A4_FREQ]
  exact mul_lt_mul_of_pos_right hpow h440

/-- `A4` resolves to exactly 440 Hz. -/
lemma frequency_A4 (dur : ℝ) : Note.frequency ⟨"A4", dur⟩ = .ok 440 := by
  have h : Note.frequency ⟨"A4", dur⟩ =
      .ok ((2 : ℝ) ^ (((0 : ℤ) : ℝ) / 12) * A4_FREQ) := rfl
  rw [h, A4_FREQ]
  norm_num

/-- `A5` resolves to exactly 880 Hz. -/
lemma frequency_A5 (dur : ℝ) : Note.frequency ⟨"A5", dur⟩ = .ok 880 := by
  have h : Note.frequency ⟨"A5", dur⟩ =
      .ok ((2 : ℝ) ^ (((12 : ℤ) : ℝ) / 12) * A4_FREQ) := rfl
  rw [h, A4_FREQ]
  have h12 : (((12 : ℤ) : ℝ) / 12) = 1 := by norm_num
  rw [h12, Real.rpow_one]
  norm_num

/-- `A3` resolves to exactly 220 Hz. -/
lemma frequency_A3 (dur : ℝ) : Note.frequency ⟨"A3", dur⟩ = .ok 220 := by
  have h : Note.frequency ⟨"A3", dur⟩ =
      .ok ((2 : ℝ) ^ (((-12 : ℤ) : ℝ) / 12) * A4_FREQ) := rfl
  rw [h, A4_FREQ]
  have h12 : (((-12 : ℤ) : ℝ) / 12) = ((-1 : ℤ) : ℝ) := by norm_num
  rw [h12, Real.rpow_intCast]
  norm_num

/-- C1: for every valid pitch name — recognised letter, optional
recognised accidental, digit octave character — the resolved frequency is
`440 * 2 ^ (n / 12)` with
`n = letter_offset + (octave_digit - 4) * 12 + accidental_offset`;
in particular `A4 ↦ 440`, `A5 ↦ 880`, `A3 ↦ 220`. -/
theorem c1_frequency_formula :
    (∀ (l o : Char) (dur : ℝ) (nl : ℤ) (d : ℕ),
        letterOffset l = .ok nl → charToDigit o = some d →
        Note.frequency ⟨String.mk [l, o], dur⟩ =
          .ok (440 * (2 : ℝ) ^ (((nl + ((d : ℤ) - 4) * 12 : ℤ) : ℝ) / 12))) ∧
      (∀ (l a o : Char) (dur : ℝ) (nl na : ℤ) (d : ℕ),
        letterOffset l = .ok nl → accidentalOffset a = .ok na →
        charToDigit o = some d →
        Note.frequency ⟨String.mk [l, a, o], dur⟩ =
          .ok (440 * (2 : ℝ) ^ (((nl + ((d : ℤ) - 4) * 12 + na : ℤ) : ℝ) / 12))) ∧
      (∀ dur : ℝ, Note.frequency ⟨"A4", dur⟩ = .ok 440) ∧
      (∀ dur : ℝ, Note.frequency ⟨"A5", dur⟩ = .ok 880) ∧
      (∀ dur : ℝ, Note.frequency ⟨"A3", dur⟩ = .ok 220) := by
  refine ⟨?_, ?_, frequency_A4, frequency_A5, frequency_A3⟩
  · intro l o dur nl d hl ho
    rw [frequency_two_ok l o dur nl d hl ho, OCTAVE_SEMITONES, A4_FREQ]
    rw [add_zero, mul_comm]
  · intro l a o dur nl na d hl ha ho
    rw [frequency_three_ok l a o dur nl na d hl ha ho, OCTAVE_SEMITONES, A4_FREQ]
    rw [mul_comm]

/-- C1 witness: at the valid name `G#7` (letter `G`, accidental `#`,
octave digit `7`) the hypotheses hold. -/
theorem c1_frequency_formula_witness :
    Note.frequency ⟨String.mk ['G', '#', '7'], 1⟩ =
      .ok (440 * (2 : ℝ) ^ ((((-2 : ℤ) + ((7 : ℤ) - 4) * 12 + 1 : ℤ) : ℝ) / 12)) :=
  c1_frequency_formula.2.1 'G' '#' '7' 1 (-2) 1 7 rfl rfl (by decide)

/-- C7: two notes whose parsed semitone distances from A4 agree resolve
to the same frequency; in particular the enharmonic pair `C#4` / `Db4`
resolve to numerically equal frequencies. -/
theorem c7_enharmonic :
    (∀ (n₁ n₂ : Note) (s : ℤ), n₁.semitones = .ok s → n₂.semitones = .ok s →
        n₁.frequency = n₂.frequency) ∧
      (∀ dur₁ dur₂ : ℝ,
        Note.frequency ⟨"C#4", dur₁⟩ = Note.frequency ⟨"Db4", dur₂⟩) := by
  constructor
  · intro n₁ n₂ s h₁ h₂
    rw [Note.frequency, Note.frequency, h₁, h₂]
  · intro dur₁ dur₂
    rfl

/-- C7 witness: `C#4` and `Db4` both parse to semitone distance `-8`, so
the general part applies to them. -/
theorem c7_enharmonic_witness :
    Note.frequency ⟨"C#4", 1⟩ = Note.frequency ⟨"Db4", 1⟩ :=
  c7_enharmonic.1 ⟨"C#4", 1⟩ ⟨"Db4", 1⟩ (-8) (by rfl) (by rfl)

/-- C8: for a fixed letter (and, in the 3-character form, a fixed
accidental), a pitch name with a strictly larger octave digit resolves to
a strictly larger frequency. -/
theorem c8_octave_monotone :
    ∀ (l a o₁ o₂ : Char) (dur₁ dur₂ : ℝ) (d₁ d₂ : ℕ) (f₁ f₂ : ℝ),
      charToDigit o₁ = some d₁ → charToDigit o₂ = some d₂ → d₁ < d₂ →
      ((Note.frequency ⟨String.mk [l, o₁], dur₁⟩ = .ok f₁ →
          Note.frequency ⟨String.mk [l, o₂], dur₂⟩ = .ok f₂ → f₁ < f₂) ∧
        (Note.frequency ⟨String.mk [l, a, o₁], dur₁⟩ = .ok f₁ →
          Note.frequency ⟨String.mk [l, a, o₂], dur₂⟩ = .ok f₂ → f₁ < f₂)) := by
  intro l a o₁ o₂ dur₁ dur₂ d₁ d₂ f₁ f₂ ho₁ ho₂ hd
  constructor
  · intro h₁ h₂
    obtain ⟨s₁, hs₁, hf₁⟩ := frequency_ok_inv h₁
    obtain ⟨s₂, hs₂, hf₂⟩ := frequency_ok_inv h₂
    obtain ⟨nl₁, e₁, hl₁, ho₁', hv₁⟩ := semitones_pair_ok_inv hs₁
    obtain ⟨nl₂, e₂, hl₂, ho₂', hv₂⟩ := semitones_pair_ok_inv hs₂
    rw [hl₁] at hl₂
    rw [ho₁] at ho₁'
    rw [ho₂] at ho₂'
    obtain rfl := Except.ok.inj hl₂
    obtain rfl := Option.some.inj ho₁'
    obtain rfl := Option.some.inj ho₂'
    rw [hf₁, hf₂, hv₁, hv₂]
    exact freq_formula_strictMono (by rw [OCTAVE_SEMITONES]; omega)
  · intro h₁ h₂
    obtain ⟨s₁, hs₁, hf₁⟩ := frequency_ok_inv h₁
    obtain ⟨s₂, hs₂, hf₂⟩ := frequency_ok_inv h₂
    obtain ⟨nl₁, na₁, e₁, hl₁, ha₁, ho₁', hv₁⟩ := semitones_triple_ok_inv hs₁
    obtain ⟨nl₂, na₂, e₂, hl₂, ha₂, ho₂', hv₂⟩ := semitones_triple_ok_inv hs₂
    rw [hl₁] at hl₂
    rw [ha₁] at ha₂
    rw [ho₁] at ho₁'
    rw [ho₂] at ho₂'
    obtain rfl := Except.ok.inj hl₂
    obtain rfl := Except.ok.inj ha₂
    obtain rfl := Option.some.inj ho₁'
    obtain rfl := Option.some.inj ho₂'
    rw [hf₁, hf₂, hv₁, hv₂]
    exact freq_formula_strictMono (by rw [OCTAVE_SEMITONES]; omega)

/-- C8 witness: `A4` versus `A5` — octave digit 4 against 5 — with their
resolved frequency values. -/
theorem c8_octave_monotone_witness :
    (2 : ℝ) ^ ((((0 : ℤ) + ((4 : ℤ) - 4) * OCTAVE_SEMITONES + 0 : ℤ) : ℝ) / 12) *
        A4_FREQ <
      (2 : ℝ) ^ ((((0 : ℤ) + ((5 : ℤ) - 4) * OCTAVE_SEMITONES + 0 : ℤ) : ℝ) / 12) *
        A4_FREQ :=
  (c8_octave_monotone 'A' 'b' '4' '5' 1 1 4 5 _ _ (by decide) (by decide)
      (by decide)).1
    (frequency_two_ok 'A' '4' 1 0 4 rfl (by decide))
    (frequency_two_ok 'A' '5' 1 0 5 rfl (by decide))

/-- A note name whose UTF-8 byte length is neither 2 nor 3 is rejected
as `invalidNoteFormat`. -/
lemma semitones_invalid_format (nt : Note) (h2 : nt.note.utf8ByteSize ≠ 2)
    (h3 : nt.note.utf8ByteSize ≠ 3) :
    Note.semitones nt = .error .invalidNoteFormat := by
  rw [semitones_eq_def, if_neg h2, if_neg h3]

/-- C3 (amended): the resolver branches on the UTF-8 byte length of the
name (Rust `String::len`), fetches characters by character index, and
reports errors in the code's checking order — byte length first, then
(in the 3-byte branch) the accidental, then the octave digit, and the
letter only last.  So: a byte length other than 2 or 3 raises
`InvalidNoteFormat`; a 3-byte name whose character at index 1 is neither
`b` nor `#` raises `InvalidAccidental` regardless of the other
characters; a name of accepted byte length whose accidental (if any) is
valid but whose octave-position character is not a decimal digit raises
`InvalidOctaveDigit` — even when the first character is also outside
A–G; a first character outside A–G raises `UnknownPitchLetter` only once
the accidental and octave positions are valid; and a name of accepted
byte length with fewer characters than the branch indexes (possible only
with multi-byte characters, e.g. `"é"`) fails on the `chars().nth`
unwrap, a panic site outside the design document's taxonomy
(`missingChar`).  The examples `""`, `"ABCD"` ↦ `InvalidNoteFormat`,
`"H4"` ↦ `UnknownPitchLetter`, `"Cx4"` ↦ `InvalidAccidental`,
`"C#x"` ↦ `InvalidOctaveDigit` all hold. -/
theorem c3_error_taxonomy :
    (∀ nt : Note, nt.note.utf8ByteSize ≠ 2 → nt.note.utf8ByteSize ≠ 3 →
        nt.frequency = .error .invalidNoteFormat) ∧
      (∀ (nt : Note) (l a : Char), nt.note.utf8ByteSize = 3 →
        nt.note.data.get? 0 = some l → nt.note.data.get? 1 = some a →
        a ≠ 'b' → a ≠ '#' →
        nt.frequency = .error .invalidAccidental) ∧
      (∀ (nt : Note) (l o : Char), nt.note.utf8ByteSize = 2 →
        nt.note.data.get? 0 = some l → nt.note.data.get? 1 = some o →
        charToDigit o = none →
        nt.frequency = .error .invalidOctaveDigit) ∧
      (∀ (nt : Note) (l a o : Char) (na : ℤ), nt.note.utf8ByteSize = 3 →
        nt.note.data.get? 0 = some l → nt.note.data.get? 1 = some a →
        accidentalOffset a = .ok na → nt.note.data.get? 2 = some o →
        charToDigit o = none →
        nt.frequency = .error .invalidOctaveDigit) ∧
      (∀ (nt : Note) (l o : Char) (d : ℕ), nt.note.utf8ByteSize = 2 →
        nt.note.data.get? 0 = some l →
        l ∉ (['A', 'B', 'C', 'D', 'E', 'F', 'G'] : List Char) →
        nt.note.data.get? 1 = some o → charToDigit o = some d →
        nt.frequency = .error .unknownPitchLetter) ∧
      (∀ (nt : Note) (l a o : Char) (na : ℤ) (d : ℕ), nt.note.utf8ByteSize = 3 →
        nt.note.data.get? 0 = some l →
        l ∉ (['A', 'B', 'C', 'D', 'E', 'F', 'G'] : List Char) →
        nt.note.data.get? 1 = some a → accidentalOffset a = .ok na →
        nt.note.data.get? 2 = some o → charToDigit o = some d →
        nt.frequency = .error .unknownPitchLetter) ∧
      (∀ (nt : Note) (l : Char), nt.note.utf8ByteSize = 2 →
        nt.note.data.get? 0 = some l → nt.note.data.get? 1 = none →
        nt.frequency = .error .missingChar) ∧
      (∀ dur : ℝ, Note.frequency ⟨"", dur⟩ = .error .invalidNoteFormat) ∧
      (∀ dur : ℝ, Note.frequency ⟨"ABCD", dur⟩ = .error .invalidNoteFormat) ∧
      (∀ dur : ℝ, Note.frequency ⟨"H4", dur⟩ = .error .unknownPitchLetter) ∧
      (∀ dur : ℝ, Note.frequency ⟨"Cx4", dur⟩ = .error .invalidAccidental) ∧
      (∀ dur : ℝ, Note.frequency ⟨"C#x", dur⟩ = .error .invalidOctaveDigit) := by
  refine ⟨?_, ?_, ?_, ?_, ?_, ?_, ?_, fun _ => rfl, fun _ => rfl, fun _ => rfl,
    fun _ => rfl, fun _ => rfl⟩
  · intro nt h2 h3
    rw [Note.frequency, semitones_invalid_format nt h2 h3]
    rfl
  · intro nt l a h3 hg0 hg1 hb hs
    rw [Note.frequency, semitones_eq_def, if_neg (by omega), if_pos h3, hg0, hg1]
    simp only [accidentalOffset_error hb hs]
    rfl
  · intro nt l o h2 hg0 hg1 ho
    rw [Note.frequency, semitones_eq_def, if_pos h2, hg0, hg1]
    simp only [ho]
    rfl
  · intro nt l a o na h3 hg0 hg1 ha hg2 ho
    rw [Note.frequency, semitones_eq_def, if_neg (by omega), if_pos h3, hg0, hg1]
    simp only [ha, hg2, ho]
    rfl
  · intro nt l o d h2 hg0 hmem hg1 ho
    rw [Note.frequency, semitones_eq_def, if_pos h2, hg0, hg1]
    simp only [ho, letterOffset_error hmem]
    rfl
  · intro nt l a o na d h3 hg0 hmem hg1 ha hg2 ho
    rw [Note.frequency, semitones_eq_def, if_neg (by omega), if_pos h3, hg0, hg1]
    simp only [ha, hg2, ho, letterOffset_error hmem]
    rfl
  · intro nt l h2 hg0 hg1
    rw [Note.frequency, semitones_eq_def, if_pos h2, hg0, hg1]
    rfl

/-- C3 witness: the amended first clause applied at the 4-byte name
`"ABCD"`. -/
theorem c3_error_taxonomy_witness :
    Note.frequency ⟨"ABCD", 1⟩ = .error .invalidNoteFormat :=
  c3_error_taxonomy.1 ⟨"ABCD", 1⟩ (by decide) (by decide)

/-- C3 counterexample: the claim says a first character outside A–G
raises `UnknownPitchLetter`, but for `"Hx"` — first character `H` — the
code hits the octave-digit `unwrap` first and raises
`InvalidOctaveDigit`. -/
theorem c3_counterexample :
    Note.frequency ⟨"Hx", 1⟩ = .error .invalidOctaveDigit ∧
      Note.frequency ⟨"Hx", 1⟩ ≠ .error .unknownPitchLetter := by
  have hfreq : Note.frequency ⟨"Hx", 1⟩ = .error .invalidOctaveDigit := rfl
  refine ⟨hfreq, ?_⟩
  intro h
  rw [hfreq] at h
  exact absurd (Except.error.inj h) (by decide)

/-- One step of the sequencing loop: when the head note resolves and the
rest of the loop succeeds, the head contributes its tone stream followed
by the 5 ms silence stream. -/
lemma playbackSequence_cons (nt : Note) (rest : List Note) (f : ℝ)
    (tl : List SineWave) (hf : nt.frequency = .ok f)
    (hrest : playbackSequence rest = .ok tl) :
    playbackSequence (nt :: rest) =
      .ok (SineWave.new f nt.duration :: SineWave.new 0 0.005 :: tl) := by
  have hdef : playbackSequence (nt :: rest) =
      nt.frequency >>= fun freq =>
        playbackSequence rest >>= fun tail =>
          .ok (SineWave.new freq nt.duration :: SineWave.new 0 0.005 :: tail) := rfl
  rw [hdef, hf, hrest]
  rfl

/-- C5: when every note resolves, the playback sequence is exactly the
per-note tone-then-silence concatenation in input order — `2n` streams
for `n` notes — and on `[{A4, 0.5}, {A5, 0.5}]` it is
tone@440/0.5 s, silence, tone@880/0.5 s, silence. -/
theorem c5_sequencer :
    (∀ (notes : List Note) (fs : List ℝ),
        List.Forall₂ (fun nt f => Note.frequency nt = .ok f) notes fs →
        playbackSequence notes = .ok (specPlayback (notes.zip fs))) ∧
      (∀ pairs : List (Note × ℝ), (specPlayback pairs).length = 2 * pairs.length) ∧
      (playbackSequence [⟨"A4", 0.5⟩, ⟨"A5", 0.5⟩] =
        .ok [SineWave.new 440 0.5, SineWave.new 0 0.005,
             SineWave.new 880 0.5, SineWave.new 0 0.005]) := by
  refine ⟨?_, ?_, ?_⟩
  · intro notes fs h
    induction h with
    | nil => rfl
    | cons hfd htail ih =>
        rw [playbackSequence_cons _ _ _ _ hfd ih]
        rfl
  · intro pairs
    induction pairs with
    | nil => rfl
    | cons p rest ih =>
        have hcons : specPlayback (p :: rest) =
            SineWave.new p.2 p.1.duration :: SineWave.new 0 0.005 ::
              specPlayback rest := rfl
        rw [hcons, List.length_cons, List.length_cons, ih, List.length_cons]
        ring
  · have h2 := playbackSequence_cons ⟨"A5", 0.5⟩ [] 880 [] (frequency_A5 0.5) rfl
    have h1 := playbackSequence_cons ⟨"A4", 0.5⟩ [⟨"A5", 0.5⟩] 440 _
      (frequency_A4 0.5) h2
    exact h1

/-- C5 witness: the single-note list `[{A4, 0.5}]` with its resolved
frequency list `[440]`. -/
theorem c5_sequencer_witness :
    playbackSequence [⟨"A4", 0.5⟩] =
      .ok (specPlayback ([(⟨"A4", 0.5⟩ : Note)].zip [(440 : ℝ)])) :=
  c5_sequencer.1 _ _ (List.Forall₂.cons (frequency_A4 0.5) List.Forall₂.nil)

end WaveSynth
